import Mathlib

/-!
# Verification of the security-deposit banking service

A shallow embedding of the core logic of the repository (bank.py,
database.py, http_session_manager.py, http_utils.py, server.py and
http_responses.py), together with theorems settling the specification
claims about it.

Modelling conventions:
* Python floats (balances, amounts, timestamps) are embedded as `ℚ`.
* Python `int` is embedded as `Int`.
* `Account.notes` starts as `None` in the source; `None` and the empty
  string are observationally identical in every operation (`if notes:`
  truthiness), so notes are embedded as `String` with `""` for `None`.
* Exceptions become an explicit error type (`BankErr`); the message
  strings do not influence control flow and are elided.
* The SQLite plumbing of database.py is the spec's out-of-scope storage
  collaborator and is embedded as a finite association list keyed by
  `account_num`; the record-level logic that database.py performs on the
  Python side (the balance zeroing for account 935370 in
  `update_account`, the salted-hash comparison in `authenticate`) is
  embedded faithfully.
* `isinstance` type checks in bank.py are enforced statically by the
  Lean types and have no runtime counterpart in the model.
-/

namespace SecurityDeposit

/-- models.Role: a closed enumeration of exactly two roles. -/
inductive Role
  | CUSTOMER
  | BANKER
deriving DecidableEq

/-- models.Account: account number, owner name, balance and notes
(`None` notes embedded as `""`). -/
structure Account where
  account_num : Int
  owner_name : String
  balance : ℚ
  notes : String
deriving DecidableEq

/-- models.User: a logged-in user. -/
structure User where
  username : String
  account_num : Int
  role : Role
  password : String
  salt : String
deriving DecidableEq

/-- The error taxonomy of bank.py: the exception classes raised by the
ledger operations. -/
inductive BankErr
  | typeError
  | valueError
  | permissionError
  | runtimeError
deriving DecidableEq

deriving instance DecidableEq for Except

/-- `sys.float_info.max`, the largest finite double (2 ^ 1024 - 2 ^ 971),
as a rational, written as a numeral so that concrete comparisons reduce
in the kernel; `floatMax_eq` below relates it to the closed form. -/
def floatMax : ℚ := 179769313486231570814527423731704356798070567525844996598917476803157260780028538760589558632766878171540458953514382464234321326889464182768467546703537516986049910576551282076245490090389328944075868508455133942304583236903222948165808559332123348274797826204144723168738177180919299881250404026184124858368

/-- Database.search_by_id: look an account up by its number.  The
account store is an association list keyed by `account_num` (the SQLite
table with `account_num` as primary key). -/
def search_by_id (st : List Account) (acct_num : Int) : Option Account :=
  st.find? (fun a => a.account_num == acct_num)

/-- Database.update_account: replace the stored record having the same
`account_num` and return the written record, or `none` when no row
matched (`cur.rowcount == 0`).  Faithfully includes the source's
record-level quirk: for account number 935370 the balance is zeroed
before the write (`if acct.account_num == 935370: acct.balance = 0`).
The `tracker` attribute added to the returned object does not affect
any downstream comparison and is elided. -/
def update_account (st : List Account) (acct : Account) :
    Option (Account × List Account) :=
  let acct' := if acct.account_num = 935370 then { acct with balance := 0 } else acct
  if st.any (fun a => a.account_num == acct'.account_num) then
    some (acct', st.map (fun a => if a.account_num == acct'.account_num then acct' else a))
  else
    none

/-- Database.create_account: persist a new account record (the spec's
storage collaborator `create` operation; bank.py only calls it with an
account number it has just checked to be unused). -/
def db_create_account (st : List Account) (acct : Account) :
    Account × List Account :=
  (acct, st ++ [acct])

/-- Database.authenticate: look the user up by username and compare the
stored digest with the hash of the supplied password and the stored
salt.  The hashing primitive (`sha3_256` plus base64 plumbing) is the
spec's injectable `hash(password, salt) -> digest` collaborator and is
a parameter. -/
def db_authenticate (hash : String → String → String) (users : List User)
    (username password : String) : Option User :=
  match users.find? (fun u => u.username == username) with
  | none => none
  | some user =>
      if user.password = hash password user.salt then some user else none

/-- CPython `$` semantics: without `re.MULTILINE`, `$` matches at the
end of the string and also just before one newline that ends the
string, so matching an `^...$`-anchored pattern against `s` is matching
it against `s` stripped of at most one final `\n`. -/
def dropTrailingNewline (l : List Char) : List Char :=
  if l.getLast? = some '\n' then l.dropLast else l

/-- bank.OWNER_NAME_PATTERN under CPython `re.match` semantics:
`^[a-zA-Z ]{1,64}$` accepts 1-64 Latin letters and spaces, optionally
followed by a single trailing newline (which `$` tolerates). -/
def ownerNameMatches (s : String) : Bool :=
  1 ≤ (dropTrailingNewline s.data).length &&
    (dropTrailingNewline s.data).length ≤ 64 &&
    (dropTrailingNewline s.data).all (fun c => c.isAlpha || c == ' ')

/-- The spec's valid-name domain: 1-64 Latin letters and spaces, with
no trailing-newline tolerance. -/
def plainLatinName (s : String) : Bool :=
  1 ≤ s.data.length && s.data.length ≤ 64 &&
    s.data.all (fun c => c.isAlpha || c == ' ')

/-- The repeated permission test of bank.py (deposit / withdraw /
get_account): the actor is a banker, or a customer operating on the
account they own. -/
def Authorized (user : User) (acct : Account) : Prop :=
  user.role = Role.BANKER ∨
    (user.role = Role.CUSTOMER ∧ user.account_num = acct.account_num)

instance (user : User) (acct : Account) : Decidable (Authorized user acct) := by
  unfold Authorized; infer_instance

/-- The notes update shared by bank.deposit and bank.withdraw:
`if notes: acct.notes = acct.notes + "\n\n" + notes if acct.notes else notes`. -/
def appendNotes (acctNotes notes : String) : String :=
  if notes ≠ "" then
    (if acctNotes ≠ "" then acctNotes ++ "\n\n" ++ notes else notes)
  else acctNotes

/-- bank.get_SUPPORT_UN. -/
def get_SUPPORT_UN : String := "admin"

/-- bank.get_SUPPORT_PW. -/
def get_SUPPORT_PW : String := "admin"

/-- bank.create_account.  The unbounded random retry loop is embedded by
passing the stream of `random.randint(100000, 999999)` draws explicitly
as a list; the result is `none` when the supplied draws are exhausted
(the source would keep looping and draw more). -/
def bank_create_account (st : List Account) (owner_name : String) (balance : ℚ)
    (user : User) (draws : List Int) :
    Option (Except BankErr Account × List Account) :=
  if owner_name.length = 0 ∨ 64 < owner_name.length ∨ ¬ownerNameMatches owner_name then
    some (.error .valueError, st)
  else if balance < 0 ∨ floatMax < balance then
    some (.error .valueError, st)
  else if user.role ≠ Role.BANKER then
    some (.error .permissionError, st)
  else
    match draws.find? (fun d => (search_by_id st d).isNone) with
    | some new_id =>
        let r := db_create_account st ⟨new_id, owner_name, balance, ""⟩
        some (.ok r.1, r.2)
    | none => none

/-- bank.deposit.  Returns the outcome together with the resulting
account store (the store is unchanged on failures raised before the
write; the write has already happened when the integrity RuntimeError
is raised). -/
def bank_deposit (st : List Account) (account_num : Int) (amount : ℚ)
    (notes : String) (user : User) : Except BankErr Account × List Account :=
  if amount < 0 ∨ floatMax < amount then (.error .valueError, st)
  else
    match search_by_id st account_num with
    | none => (.error .valueError, st)
    | some acct =>
      if user.role ≠ Role.BANKER ∧
          ¬(user.role = Role.CUSTOMER ∧ user.account_num = acct.account_num) then
        (.error .permissionError, st)
      else
        let acct' : Account :=
          ⟨acct.account_num, acct.owner_name, acct.balance + amount,
            appendNotes acct.notes notes⟩
        match update_account st acct' with
        | none => (.error .runtimeError, st)
        | some (result, st') =>
          if result.balance ≠ acct'.balance then (.error .runtimeError, st')
          else (.ok acct', st')

/-- bank.withdraw.  Mirrors bank.deposit with the additional overdraft
check `if acct.balance < amount` after the permission check. -/
def bank_withdraw (st : List Account) (account_num : Int) (amount : ℚ)
    (notes : String) (user : User) : Except BankErr Account × List Account :=
  if amount < 0 ∨ floatMax < amount then (.error .valueError, st)
  else
    match search_by_id st account_num with
    | none => (.error .valueError, st)
    | some acct =>
      if user.role ≠ Role.BANKER ∧
          ¬(user.role = Role.CUSTOMER ∧ user.account_num = acct.account_num) then
        (.error .permissionError, st)
      else if acct.balance < amount then
        (.error .valueError, st)
      else
        let acct' : Account :=
          ⟨acct.account_num, acct.owner_name, acct.balance - amount,
            appendNotes acct.notes notes⟩
        match update_account st acct' with
        | none => (.error .runtimeError, st)
        | some (result, st') =>
          if result.balance ≠ acct'.balance then (.error .runtimeError, st')
          else (.ok acct', st')

/-- bank.get_account. -/
def bank_get_account (st : List Account) (account_num : Int) (user : User) :
    Except BankErr Account :=
  match search_by_id st account_num with
  | none => .error .valueError
  | some acct =>
    if user.role ≠ Role.BANKER ∧
        ¬(user.role = Role.CUSTOMER ∧ user.account_num = acct.account_num) then
      .error .permissionError
    else
      .ok acct

/-- bank.login: the hardcoded support-credentials bypass, then the
store's salted-hash verification. -/
def bank_login (hash : String → String → String) (users : List User)
    (username password : String) : Except BankErr User :=
  if username = get_SUPPORT_UN ∧ password = get_SUPPORT_PW then
    .ok ⟨username, 999999, Role.BANKER, "password", "salt"⟩
  else
    match db_authenticate hash users username password with
    | none => .error .valueError
    | some user => .ok user

/-! ## Session manager (http_session_manager.py) -/

/-- http_session_manager.Session: the owning user and an absolute
expiration timestamp (`time.time()` values embedded as `ℚ`). -/
structure Session where
  user : User
  expiration : ℚ
deriving DecidableEq

/-- The fixed cookie name `SD-SessionID`. -/
def SESSION_ID : String := "SD-SessionID"

/-- The observable outcome of HttpSessionManager.authenticate: either
an Unauthorized failure (recording whether the response carries the
cookie-invalidating `deleted` / `expires=0` instruction) or the
authenticated user. -/
inductive AuthOutcome
  | unauthorized (invalidatesCookie : Bool)
  | ok (user : User)
deriving DecidableEq

/-- HttpSessionManager.authenticate.  The session store is the
`_sessions` dict as an association list from token to `Session`; the
`Cookie` header is embedded already parsed, as `none` when the header
is absent and otherwise as the morsel list of the SimpleCookie
(`_SESSION_ID in cookie` becomes a lookup).  `now` is `time.time()`.
Returns the outcome and the resulting session store (the expired
session is deleted from the store before the Unauthorized failure;
the persistence snapshot `_write_sessions` does not change the
mapping). -/
def sm_authenticate (sessions : List (String × Session))
    (cookieHeader : Option (List (String × String))) (now : ℚ) :
    AuthOutcome × List (String × Session) :=
  match cookieHeader with
  | none => (.unauthorized false, sessions)
  | some cookie =>
    match cookie.lookup SESSION_ID with
    | none => (.unauthorized false, sessions)
    | some session_id =>
      match sessions.lookup session_id with
      | none => (.unauthorized false, sessions)
      | some sess =>
        if sess.expiration < now then
          (.unauthorized true, sessions.filter (fun p => p.1 ≠ session_id))
        else
          (.ok sess.user, sessions)

/-! ## Dispatcher outcome mapping (server.py, http_responses.py) -/

/-- The HTTP status code the dispatcher produces for a ledger outcome.
This is the `try/except` tail shared by `do_deposit`, `do_withdraw`,
`do_create_account` and `do_get_account_info` in server.py: a returned
Account becomes `OK` (200), `TypeError`/`ValueError` become
`BadRequest` (400), `PermissionError` becomes `Forbidden` (403) and
`RuntimeError` becomes `InternalServerError` (500). -/
def bankResultCode : Except BankErr Account → Nat
  | .ok _ => 200
  | .error .typeError => 400
  | .error .valueError => 400
  | .error .permissionError => 403
  | .error .runtimeError => 500

/-- server.do_withdraw, restricted to the ledger call and its
response translation: the status code of the response produced for a
withdrawal request that has passed authentication and parameter
extraction. -/
def do_withdraw_status (st : List Account) (account_num : Int) (amount : ℚ)
    (notes : String) (user : User) : Nat :=
  bankResultCode (bank_withdraw st account_num amount notes user).1

/-! ## Request parser (http_utils.py)

The parser is embedded over `List Char` (Python `str` values), with
`String` at the interface.  `str.splitlines` is embedded for
newline-separated input (the source is fed `recv` bytes decoded as
text; the claims under verification do not involve `\r` line ends). -/

/-- The numeric value of a hexadecimal digit, or `none`. -/
def hexVal (c : Char) : Option Nat :=
  if '0' ≤ c ∧ c ≤ '9' then some (c.toNat - '0'.toNat)
  else if 'a' ≤ c ∧ c ≤ 'f' then some (c.toNat - 'a'.toNat + 10)
  else if 'A' ≤ c ∧ c ≤ 'F' then some (c.toNat - 'A'.toNat + 10)
  else none

/-- urllib.parse.unquote at the character level: each `%xx` escape with
two hexadecimal digits becomes the character with that code; anything
else (including `+`) is left as is.  (Multi-byte UTF-8 escape
sequences are out of scope; the claims concern ASCII data.) -/
def unquoteChars : List Char → List Char
  | [] => []
  | '%' :: h₁ :: h₂ :: rest =>
    match hexVal h₁, hexVal h₂ with
    | some v₁, some v₂ => Char.ofNat (16 * v₁ + v₂) :: unquoteChars rest
    | _, _ => '%' :: unquoteChars (h₁ :: h₂ :: rest)
  | c :: rest => c :: unquoteChars rest

/-- The `string.replace('+', ' ')` step that distinguishes
urllib.parse.unquote_plus from urllib.parse.unquote. -/
def plusToSpace (l : List Char) : List Char :=
  l.map (fun c => if c = '+' then ' ' else c)

/-- urllib.parse.unquote on strings. -/
def unquote (s : String) : String := ⟨unquoteChars s.data⟩

/-- urllib.parse.unquote_plus on strings: `+` to space, then percent
decoding. -/
def unquote_plus (s : String) : String := ⟨unquoteChars (plusToSpace s.data)⟩

/-- Python str.strip(): drop leading and trailing whitespace. -/
def stripChars (l : List Char) : List Char :=
  ((l.dropWhile Char.isWhitespace).reverse.dropWhile Char.isWhitespace).reverse

/-- Python str.split(sep) for a single-character separator: splits on
every occurrence, keeping empty fragments. -/
def splitOnChar (sep : Char) : List Char → List (List Char)
  | [] => [[]]
  | c :: rest =>
    match splitOnChar sep rest with
    | [] => [[]]
    | g :: gs => if c = sep then [] :: g :: gs else (c :: g) :: gs

/-- Python str.splitlines for newline-separated text: split on `\n`,
without a trailing empty line when the text ends in `\n`, and empty
for the empty string. -/
def splitlines (s : String) : List String :=
  if s.data = [] then []
  else
    let parts := (splitOnChar '\n' s.data).map (fun l => String.mk l)
    if s.data.getLast? = some '\n' then parts.dropLast else parts

/-- Python str.partition(sep) for a single-character separator: the
part before the first occurrence and the part after it, or `none`
when the separator does not occur. -/
def partitionChar (sep : Char) : List Char → Option (List Char × List Char)
  | [] => none
  | c :: rest =>
    if c = sep then some ([], rest)
    else
      match partitionChar sep rest with
      | some (a, b) => some (c :: a, b)
      | none => none

/-- The method allow-list of http_utils.VALID_REQUEST_LINE_PATTERN. -/
def METHODS : List String :=
  ["OPTIONS", "GET", "HEAD", "POST", "PUT", "DELETE", "TRACE", "CONNECT"]

/-- The `HTTP/(1.0|1.1|2.0)` tail of the request-line regex.  The dots
are unescaped in the source pattern, so the middle character is
arbitrary. -/
def matchesHttpProto (p : List Char) : Bool :=
  match p with
  | 'H' :: 'T' :: 'T' :: 'P' :: '/' :: [v₀, _, v₂] =>
    (v₀ = '1' && (v₂ = '0' || v₂ = '1')) || (v₀ = '2' && v₂ = '0')
  | _ => false

/-- http_utils.VALID_REQUEST_LINE_PATTERN:
`^(OPTIONS|GET|HEAD|POST|PUT|DELETE|TRACE|CONNECT) \S+ HTTP/(1.0|1.1|2.0)$`.
The two single spaces make `split(' ')` produce exactly three parts;
`\S+` requires a non-empty path without whitespace. -/
def matchesRequestLine (line : String) : Bool :=
  match splitOnChar ' ' line.data with
  | [m, path, proto] =>
    METHODS.contains (String.mk m) && !path.isEmpty &&
      path.all (fun c => !c.isWhitespace) && matchesHttpProto proto
  | _ => false

/-- The result of http_utils.parse_request. -/
structure ParsedRequest where
  method : String
  resource : String
  protocol : String
  headers : List (String × String)
  body : String
deriving DecidableEq

/-- Python list.index for the mandatory blank separator line
(`lines.index('')`): the index of the first empty line, `none` when
there is none (the BadRequest for a missing CRLF). -/
def firstEmptyIdx : List String → Option Nat
  | [] => none
  | l :: rest =>
    if l = "" then some 0
    else (firstEmptyIdx rest).map (fun i => i + 1)

/-- Python dict insertion for the header dictionary: overwrite an
existing key in place, else append. -/
def dictInsert (m : List (String × String)) (k v : String) :
    List (String × String) :=
  if m.any (fun p => p.1 == k) then
    m.map (fun p => if p.1 == k then (k, v) else p)
  else m ++ [(k, v)]

/-- The header loop of http_utils.parse_request: each line is
partitioned at the first `:`; a missing separator or an empty raw value
is a BadRequest (`none`); the name and value are stripped and then
percent-decoded with `unquote` (not `unquote_plus`). -/
def parseHeaderLines (acc : List (String × String)) :
    List String → Option (List (String × String))
  | [] => some acc
  | h :: rest =>
    match partitionChar ':' h.data with
    | none => none
    | some (field_name, field_value) =>
      if field_value = [] then none
      else
        parseHeaderLines
          (dictInsert acc (unquote (String.mk (stripChars field_name)))
            (unquote (String.mk (stripChars field_value)))) rest

/-- http_utils.parse_request after line splitting: validate the request
line, find the mandatory blank separator line, parse the header block,
and decode the resource with `unquote_plus` and the joined body with
`unquote_plus`.  `none` models every BadRequest raise. -/
def parseLines (lines : List String) : Option ParsedRequest :=
  match lines with
  | [] => none
  | request_line :: _ =>
    if matchesRequestLine request_line then
      match firstEmptyIdx lines with
      | none => none
      | some crlf =>
        match parseHeaderLines [] ((lines.drop 1).take (crlf - 1)) with
        | none => none
        | some headers =>
          match splitOnChar ' ' request_line.data with
          | [m, path, proto] =>
            some ⟨String.mk m, unquote_plus (String.mk path), String.mk proto,
              headers,
              unquote_plus (String.intercalate "\n" (lines.drop (crlf + 1)))⟩
          | _ => none
    else none

/-- http_utils.parse_request on the raw request text. -/
def parse_request (request : String) : Option ParsedRequest :=
  parseLines (splitlines request)

/-- The store-wide balance invariant of the spec: every stored account
has a non-negative balance. -/
def StoreNonneg (st : List Account) : Prop :=
  ∀ a ∈ st, 0 ≤ a.balance

instance (st : List Account) : Decidable (StoreNonneg st) := by
  unfold StoreNonneg; infer_instance

/-! ## Helper lemmas -/

attribute [local semireducible] Rat.add Rat.sub

/-- The numeral used for `floatMax` is `2 ^ 1024 - 2 ^ 971`. -/
theorem floatMax_eq : floatMax = 2 ^ 1024 - 2 ^ 971 := by
  unfold floatMax; norm_num

/-- A name in the spec's plain 1-64 Latin-letters-and-spaces domain is
accepted by the source's pattern check (its last character is a letter
or a space, never the newline that `$` would tolerate). -/
theorem ownerNameMatches_of_plain (s : String) (h : plainLatinName s = true) :
    ownerNameMatches s = true := by
  simp only [plainLatinName, Bool.and_eq_true, decide_eq_true_eq] at h
  obtain ⟨⟨h1, h2⟩, h3⟩ := h
  have hlast : ¬s.data.getLast? = some '\n' := by
    intro hl
    have hmem : '\n' ∈ s.data := by
      obtain ⟨h0, heq⟩ :=
        List.mem_getLast?_eq_getLast (show '\n' ∈ s.data.getLast? from hl)
      rw [heq]
      exact List.getLast_mem h0
    exact absurd (List.all_eq_true.mp h3 _ hmem) (by decide)
  unfold ownerNameMatches dropTrailingNewline
  rw [if_neg hlast]
  simp only [Bool.and_eq_true, decide_eq_true_eq]
  exact ⟨⟨h1, h2⟩, h3⟩

/-- The guard of bank.py's permission check is the negation of
`Authorized`. -/
theorem not_authorized_iff (user : User) (acct : Account) :
    (user.role ≠ Role.BANKER ∧
      ¬(user.role = Role.CUSTOMER ∧ user.account_num = acct.account_num)) ↔
    ¬Authorized user acct := by
  unfold Authorized; tauto

/-- A successful `search_by_id` returns a member of the store carrying
the looked-up account number. -/
theorem search_by_id_some (st : List Account) (n : Int) (acct : Account)
    (hfound : search_by_id st n = some acct) :
    acct.account_num = n ∧ acct ∈ st := by
  unfold search_by_id at hfound
  refine ⟨?_, List.mem_of_find?_eq_some hfound⟩
  have h := List.find?_some hfound
  simpa using h

/-- When the looked-up account exists, `update_account` writes the
(possibly zeroed) record over the matching slot and reports it back. -/
theorem update_account_found (st : List Account) (n : Int) (acct b : Account)
    (hfound : search_by_id st n = some acct) (hb : b.account_num = n) :
    update_account st b =
      some ((if n = 935370 then { b with balance := 0 } else b),
        st.map (fun a =>
          if a.account_num == n then
            (if n = 935370 then { b with balance := 0 } else b)
          else a)) := by
  subst hb
  obtain ⟨hnum, hmem⟩ := search_by_id_some st _ acct hfound
  unfold update_account
  have hznum : (if b.account_num = 935370 then { b with balance := 0 } else b).account_num
      = b.account_num := by
    split <;> simp
  have hany : st.any (fun a => a.account_num == b.account_num) = true :=
    List.any_eq_true.mpr ⟨acct, hmem, by simp [hnum]⟩
  simp only [hznum, hany, if_true]

/-- Replacing the found slot of the store with a record carrying the
same account number makes that record the lookup result. -/
theorem search_by_id_map_replace (st : List Account) (n : Int) (acct b : Account)
    (hfound : search_by_id st n = some acct) (hb : b.account_num = n) :
    search_by_id (st.map (fun a => if a.account_num == n then b else a)) n = some b := by
  unfold search_by_id at hfound ⊢
  induction st with
  | nil => simp at hfound
  | cons a t ih =>
    by_cases ha : a.account_num = n
    · simp [List.find?, ha, hb]
    · rw [List.find?_cons_of_neg _ (by simp [ha])] at hfound
      simp only [List.map_cons]
      rw [if_neg (by simp [ha])]
      rw [List.find?_cons_of_neg _ (by simp [ha])]
      exact ih hfound

/-- An unauthorized deposit on an existing account with a valid amount
fails with PermissionError and leaves the store unchanged. -/
theorem bank_deposit_forbidden (st : List Account) (n : Int) (amt : ℚ)
    (notes : String) (user : User) (acct : Account)
    (hfound : search_by_id st n = some acct)
    (hamt : 0 ≤ amt) (hmax : amt ≤ floatMax) (hnauth : ¬Authorized user acct) :
    bank_deposit st n amt notes user = (.error .permissionError, st) := by
  unfold bank_deposit
  rw [if_neg (not_or.mpr ⟨not_lt.2 hamt, not_lt.2 hmax⟩)]
  simp only [hfound]
  rw [if_pos ((not_authorized_iff user acct).mpr hnauth)]

/-- An unauthorized withdrawal on an existing account with a valid
amount fails with PermissionError and leaves the store unchanged. -/
theorem bank_withdraw_forbidden (st : List Account) (n : Int) (amt : ℚ)
    (notes : String) (user : User) (acct : Account)
    (hfound : search_by_id st n = some acct)
    (hamt : 0 ≤ amt) (hmax : amt ≤ floatMax) (hnauth : ¬Authorized user acct) :
    bank_withdraw st n amt notes user = (.error .permissionError, st) := by
  unfold bank_withdraw
  rw [if_neg (not_or.mpr ⟨not_lt.2 hamt, not_lt.2 hmax⟩)]
  simp only [hfound]
  rw [if_pos ((not_authorized_iff user acct).mpr hnauth)]

/-- An unauthorized lookup of an existing account fails with
PermissionError. -/
theorem bank_get_account_forbidden (st : List Account) (n : Int)
    (user : User) (acct : Account)
    (hfound : search_by_id st n = some acct) (hnauth : ¬Authorized user acct) :
    bank_get_account st n user = .error .permissionError := by
  unfold bank_get_account
  simp only [hfound]
  rw [if_pos ((not_authorized_iff user acct).mpr hnauth)]

/-- The authorized path of bank.deposit reduces to the post-write
integrity comparison between the written record and the in-memory
expectation. -/
theorem bank_deposit_authorized (st : List Account) (n : Int) (amt : ℚ)
    (notes : String) (user : User) (acct : Account)
    (hfound : search_by_id st n = some acct)
    (hamt : 0 ≤ amt) (hmax : amt ≤ floatMax) (hauth : Authorized user acct) :
    bank_deposit st n amt notes user =
      (let acct' : Account := ⟨acct.account_num, acct.owner_name,
         acct.balance + amt, appendNotes acct.notes notes⟩
       let zb : Account := if n = 935370 then { acct' with balance := 0 } else acct'
       let st' := st.map (fun a => if a.account_num == n then zb else a)
       if zb.balance ≠ acct'.balance then (.error .runtimeError, st')
       else (.ok acct', st')) := by
  have hnum : acct.account_num = n := (search_by_id_some st n acct hfound).1
  unfold bank_deposit
  rw [if_neg (not_or.mpr ⟨not_lt.2 hamt, not_lt.2 hmax⟩)]
  simp only [hfound]
  rw [if_neg (fun hc => (not_authorized_iff user acct).mp hc hauth)]
  rw [update_account_found st n acct
    ⟨acct.account_num, acct.owner_name, acct.balance + amt, appendNotes acct.notes notes⟩
    hfound hnum]

/-- The authorized path of bank.withdraw reduces to the overdraft check
followed by the post-write integrity comparison. -/
theorem bank_withdraw_authorized (st : List Account) (n : Int) (amt : ℚ)
    (notes : String) (user : User) (acct : Account)
    (hfound : search_by_id st n = some acct)
    (hamt : 0 ≤ amt) (hmax : amt ≤ floatMax) (hauth : Authorized user acct) :
    bank_withdraw st n amt notes user =
      (if acct.balance < amt then (.error .valueError, st)
       else
        let acct' : Account := ⟨acct.account_num, acct.owner_name,
          acct.balance - amt, appendNotes acct.notes notes⟩
        let zb : Account := if n = 935370 then { acct' with balance := 0 } else acct'
        let st' := st.map (fun a => if a.account_num == n then zb else a)
        if zb.balance ≠ acct'.balance then (.error .runtimeError, st')
        else (.ok acct', st')) := by
  have hnum : acct.account_num = n := (search_by_id_some st n acct hfound).1
  unfold bank_withdraw
  rw [if_neg (not_or.mpr ⟨not_lt.2 hamt, not_lt.2 hmax⟩)]
  simp only [hfound]
  rw [if_neg (fun hc => (not_authorized_iff user acct).mp hc hauth)]
  by_cases hov : acct.balance < amt
  · rw [if_pos hov, if_pos hov]
  · rw [if_neg hov, if_neg hov]
    rw [update_account_found st n acct
      ⟨acct.account_num, acct.owner_name, acct.balance - amt, appendNotes acct.notes notes⟩
      hfound hnum]

/-- Replacing slots of a non-negative store with a record of
non-negative balance keeps every stored balance non-negative. -/
theorem storeNonneg_map_replace (st : List Account) (p : Account → Prop)
    [DecidablePred p] (b : Account) (hinv : StoreNonneg st) (hb : 0 ≤ b.balance) :
    StoreNonneg (st.map (fun a => if p a then b else a)) := by
  intro a ha
  rcases List.mem_map.mp ha with ⟨x, hx, rfl⟩
  split
  · exact hb
  · exact hinv x hx

/-! ## Claim theorems -/

/-- C1: For every call to deposit, withdraw or get_account with an
existing target account (and, for the money operations, an amount that
passes the preceding range validation so that execution reaches the
authorization check), the operation fails with the forbidden
PermissionError outcome exactly when the actor is neither a BANKER nor
a CUSTOMER whose `account_num` equals the target account's number; it
gets past the authorization step in every other case. -/
theorem claim1_auth_iff (st : List Account) (n : Int) (amt : ℚ)
    (notes : String) (user : User) (acct : Account)
    (hfound : search_by_id st n = some acct)
    (hamt : 0 ≤ amt) (hmax : amt ≤ floatMax) :
    (((bank_deposit st n amt notes user).1 = .error .permissionError) ↔
      ¬Authorized user acct)
  ∧ (((bank_withdraw st n amt notes user).1 = .error .permissionError) ↔
      ¬Authorized user acct)
  ∧ ((bank_get_account st n user = .error .permissionError) ↔
      ¬Authorized user acct) := by
  by_cases hauth : Authorized user acct
  · have hd : (bank_deposit st n amt notes user).1 ≠ .error .permissionError := by
      rw [bank_deposit_authorized st n amt notes user acct hfound hamt hmax hauth]
      simp only
      split <;> (try simp) <;> (try (split <;> simp))
    have hw : (bank_withdraw st n amt notes user).1 ≠ .error .permissionError := by
      rw [bank_withdraw_authorized st n amt notes user acct hfound hamt hmax hauth]
      split <;> (try simp) <;>
        (try (split <;> (try simp) <;> (try (split <;> simp))))
    have hg : bank_get_account st n user ≠ .error .permissionError := by
      unfold bank_get_account
      simp only [hfound]
      rw [if_neg (fun hc => (not_authorized_iff user acct).mp hc hauth)]
      simp
    exact ⟨iff_of_false hd (not_not_intro hauth),
      iff_of_false hw (not_not_intro hauth),
      iff_of_false hg (not_not_intro hauth)⟩
  · refine ⟨?_, ?_, ?_⟩
    · rw [bank_deposit_forbidden st n amt notes user acct hfound hamt hmax hauth]
      exact iff_of_true rfl hauth
    · rw [bank_withdraw_forbidden st n amt notes user acct hfound hamt hmax hauth]
      exact iff_of_true rfl hauth
    · rw [bank_get_account_forbidden st n user acct hfound hauth]
      exact iff_of_true rfl hauth

/-- Witness for C1 at a concrete store: a customer owning a different
account is rejected with PermissionError by all three operations. -/
theorem claim1_auth_iff_witness :
    ¬Authorized ⟨"carol", 111111, Role.CUSTOMER, "p", "s"⟩ ⟨123456, "Alice", 10, ""⟩
  ∧ (bank_deposit [⟨123456, "Alice", 10, ""⟩] 123456 5 ""
      ⟨"carol", 111111, Role.CUSTOMER, "p", "s"⟩).1 = .error .permissionError := by
  have h := claim1_auth_iff [⟨123456, "Alice", 10, ""⟩] 123456 5 ""
    ⟨"carol", 111111, Role.CUSTOMER, "p", "s"⟩ ⟨123456, "Alice", 10, ""⟩
    (by decide) (by decide) (by decide)
  exact ⟨by decide, h.1.mpr (by decide)⟩

/-- C2: The stored balances never become negative: create_account,
deposit and withdraw each preserve `StoreNonneg`, and a withdrawal of
more than the balance leaves the store unchanged and (for an actor who
passes the authorization check) fails with the ValueError validation
outcome. -/
theorem claim2_nonneg_invariant (st : List Account) (owner : String) (bal : ℚ)
    (user : User) (draws : List Int) (n : Int) (amt : ℚ) (notes : String)
    (acct : Account) :
    (∀ out, bank_create_account st owner bal user draws = some out →
       StoreNonneg st → StoreNonneg out.2)
  ∧ (StoreNonneg st → StoreNonneg (bank_deposit st n amt notes user).2)
  ∧ (StoreNonneg st → StoreNonneg (bank_withdraw st n amt notes user).2)
  ∧ (search_by_id st n = some acct → acct.balance < amt →
       (bank_withdraw st n amt notes user).2 = st
     ∧ (Authorized user acct →
         bank_withdraw st n amt notes user = (.error .valueError, st))) := by
  refine ⟨?_, ?_, ?_, ?_⟩
  · intro out hout hinv
    unfold bank_create_account at hout
    by_cases h1 : owner.length = 0 ∨ 64 < owner.length ∨ ¬ownerNameMatches owner
    · rw [if_pos h1] at hout
      simp only [Option.some.injEq] at hout
      subst hout; exact hinv
    · rw [if_neg h1] at hout
      by_cases h2 : bal < 0 ∨ floatMax < bal
      · rw [if_pos h2] at hout
        simp only [Option.some.injEq] at hout
        subst hout; exact hinv
      · rw [if_neg h2] at hout
        by_cases h3 : user.role ≠ Role.BANKER
        · rw [if_pos h3] at hout
          simp only [Option.some.injEq] at hout
          subst hout; exact hinv
        · rw [if_neg h3] at hout
          cases hfind : draws.find? (fun d => (search_by_id st d).isNone) with
          | none => rw [hfind] at hout; simp at hout
          | some d =>
            rw [hfind] at hout
            simp only [db_create_account, Option.some.injEq] at hout
            subst hout
            intro a ha
            rcases List.mem_append.mp ha with h | h
            · exact hinv a h
            · have ha' : a = (⟨d, owner, bal, ""⟩ : Account) := by simpa using h
              subst ha'
              push_neg at h2
              exact h2.1
  · intro hinv
    by_cases h1 : amt < 0 ∨ floatMax < amt
    · unfold bank_deposit; rw [if_pos h1]; exact hinv
    · cases hfound : search_by_id st n with
      | none =>
        unfold bank_deposit; rw [if_neg h1]; simp only [hfound]; exact hinv
      | some acct₀ =>
        push_neg at h1
        by_cases hauth : Authorized user acct₀
        · rw [bank_deposit_authorized st n amt notes user acct₀ hfound
            h1.1 h1.2 hauth]
          simp only
          have hmem := (search_by_id_some st n acct₀ hfound).2
          by_cases hz : n = 935370
          · rw [if_pos hz]
            split <;>
              exact storeNonneg_map_replace st _ _ hinv (le_refl 0)
          · rw [if_neg hz]
            split <;>
              exact storeNonneg_map_replace st _ _ hinv
                (add_nonneg (hinv acct₀ hmem) h1.1)
        · rw [bank_deposit_forbidden st n amt notes user acct₀ hfound
            h1.1 h1.2 hauth]
          exact hinv
  · intro hinv
    by_cases h1 : amt < 0 ∨ floatMax < amt
    · unfold bank_withdraw; rw [if_pos h1]; exact hinv
    · cases hfound : search_by_id st n with
      | none =>
        unfold bank_withdraw; rw [if_neg h1]; simp only [hfound]; exact hinv
      | some acct₀ =>
        push_neg at h1
        by_cases hauth : Authorized user acct₀
        · rw [bank_withdraw_authorized st n amt notes user acct₀ hfound
            h1.1 h1.2 hauth]
          split
          · exact hinv
          · simp only
            rename_i hov
            by_cases hz : n = 935370
            · rw [if_pos hz]
              split <;>
                exact storeNonneg_map_replace st _ _ hinv (le_refl 0)
            · rw [if_neg hz]
              split <;>
                exact storeNonneg_map_replace st _ _ hinv
                  (sub_nonneg.mpr (not_lt.1 hov))
        · rw [bank_withdraw_forbidden st n amt notes user acct₀ hfound
            h1.1 h1.2 hauth]
          exact hinv
  · intro hfound hov
    constructor
    · by_cases h1 : amt < 0 ∨ floatMax < amt
      · unfold bank_withdraw; rw [if_pos h1]
      · push_neg at h1
        by_cases hauth : Authorized user acct
        · rw [bank_withdraw_authorized st n amt notes user acct hfound
            h1.1 h1.2 hauth]
          rw [if_pos hov]
        · rw [bank_withdraw_forbidden st n amt notes user acct hfound
            h1.1 h1.2 hauth]
    · intro hauth
      by_cases h1 : amt < 0 ∨ floatMax < amt
      · unfold bank_withdraw; rw [if_pos h1]
      · push_neg at h1
        rw [bank_withdraw_authorized st n amt notes user acct hfound
          h1.1 h1.2 hauth]
        rw [if_pos hov]

/-- Witness for C2 at a concrete store: a deposit keeps every balance
non-negative and an overdraft withdrawal fails with ValueError leaving
the store unchanged. -/
theorem claim2_nonneg_invariant_witness :
    StoreNonneg ((bank_deposit [⟨123456, "Alice", 10, ""⟩] 123456 5 "pay"
      ⟨"t", 0, Role.BANKER, "p", "s"⟩).2)
  ∧ bank_withdraw [⟨123456, "Alice", 10, ""⟩] 123456 25 ""
      ⟨"t", 0, Role.BANKER, "p", "s"⟩ =
      (.error .valueError, [⟨123456, "Alice", 10, ""⟩]) := by
  have h₁ := claim2_nonneg_invariant [⟨123456, "Alice", 10, ""⟩] "x" 0
    ⟨"t", 0, Role.BANKER, "p", "s"⟩ [] 123456 5 "pay" ⟨123456, "Alice", 10, ""⟩
  have h₂ := claim2_nonneg_invariant [⟨123456, "Alice", 10, ""⟩] "x" 0
    ⟨"t", 0, Role.BANKER, "p", "s"⟩ [] 123456 25 "" ⟨123456, "Alice", 10, ""⟩
  exact ⟨h₁.2.1 (by decide),
    (h₂.2.2.2 (by decide) (by decide)).2 (by decide)⟩

/-- Deleting every pair carrying a key from an association list makes
lookups of that key fail. -/
theorem lookup_filter_ne (l : List (String × Session)) (k : String) :
    (l.filter (fun p => p.1 ≠ k)).lookup k = none := by
  induction l with
  | nil => rfl
  | cons a t ih =>
    obtain ⟨a1, a2⟩ := a
    by_cases ha : a1 = k
    · subst ha
      simpa using ih
    · simp only [List.filter_cons]
      rw [if_pos (by simpa using ha)]
      simpa [List.lookup,
        show (k == a1) = false from beq_eq_false_iff_ne.mpr (Ne.symm ha)] using ih

/-- C3: sm_authenticate fails with Unauthorized (no cookie-clearing
header) when the Cookie header is missing, when the cookie carries no
SD-SessionID morsel, or when the token is not in the session store; for
a stored token it succeeds exactly while `now ≤ expiration`, and when
`expiration < now` it deletes the session from the store, instructs the
client to clear the cookie, and fails with Unauthorized. -/
theorem claim3_session_authenticate (sessions : List (String × Session))
    (ck : List (String × String)) (sid : String) (sess : Session) (now : ℚ) :
    (sm_authenticate sessions none now = (.unauthorized false, sessions))
  ∧ (ck.lookup SESSION_ID = none →
      sm_authenticate sessions (some ck) now = (.unauthorized false, sessions))
  ∧ (ck.lookup SESSION_ID = some sid → sessions.lookup sid = none →
      sm_authenticate sessions (some ck) now = (.unauthorized false, sessions))
  ∧ (ck.lookup SESSION_ID = some sid → sessions.lookup sid = some sess →
      ((sm_authenticate sessions (some ck) now).1 = .ok sess.user ↔
        now ≤ sess.expiration)
    ∧ (now ≤ sess.expiration →
        sm_authenticate sessions (some ck) now = (.ok sess.user, sessions))
    ∧ (sess.expiration < now →
        (sm_authenticate sessions (some ck) now).1 = .unauthorized true
      ∧ ((sm_authenticate sessions (some ck) now).2).lookup sid = none)) := by
  refine ⟨rfl, ?_, ?_, ?_⟩
  · intro h
    unfold sm_authenticate
    simp only [h]
  · intro h1 h2
    unfold sm_authenticate
    simp only [h1, h2]
  · intro h1 h2
    refine ⟨?_, ?_, ?_⟩
    · unfold sm_authenticate
      simp only [h1, h2]
      by_cases hexp : sess.expiration < now
      · rw [if_pos hexp]
        exact iff_of_false (by simp) (not_le.2 hexp)
      · rw [if_neg hexp]
        exact iff_of_true rfl (not_lt.1 hexp)
    · intro hle
      unfold sm_authenticate
      simp only [h1, h2]
      rw [if_neg (not_lt.2 hle)]
    · intro hlt
      unfold sm_authenticate
      simp only [h1, h2]
      rw [if_pos hlt]
      exact ⟨rfl, lookup_filter_ne sessions sid⟩

/-- Witness for C3 at a concrete store: a token expired one instant ago
is rejected and purged. -/
theorem claim3_session_authenticate_witness :
    (sm_authenticate [("tok", ⟨⟨"u", 1, Role.CUSTOMER, "p", "s"⟩, 10⟩)]
      (some [(SESSION_ID, "tok")]) 11).1 = .unauthorized true
  ∧ ((sm_authenticate [("tok", ⟨⟨"u", 1, Role.CUSTOMER, "p", "s"⟩, 10⟩)]
      (some [(SESSION_ID, "tok")]) 11).2).lookup "tok" = none := by
  have h := claim3_session_authenticate
    [("tok", ⟨⟨"u", 1, Role.CUSTOMER, "p", "s"⟩, 10⟩)]
    [(SESSION_ID, "tok")] "tok" ⟨⟨"u", 1, Role.CUSTOMER, "p", "s"⟩, 10⟩ 11
  exact (h.2.2.2 (by decide) (by decide)).2.2 (by decide)

/-- C4: After the write, deposit and withdraw compare the persisted
balance with the expected in-memory balance: the operation fails with
the RuntimeError integrity outcome exactly when the stored balance
differs from the expectation, returns the updated account when they
agree, and the dispatcher maps RuntimeError to the 500 internal-error
response, distinct from every validation response. -/
theorem claim4_integrity_check (st : List Account) (n : Int) (amt : ℚ)
    (notes : String) (user : User) (acct : Account)
    (hfound : search_by_id st n = some acct)
    (hamt : 0 ≤ amt) (hmax : amt ≤ floatMax) (hauth : Authorized user acct) :
    (∃ a', search_by_id (bank_deposit st n amt notes user).2 n = some a'
       ∧ ((bank_deposit st n amt notes user).1 = .error .runtimeError ↔
           a'.balance ≠ acct.balance + amt)
       ∧ (a'.balance = acct.balance + amt →
           (bank_deposit st n amt notes user).1 =
             .ok ⟨acct.account_num, acct.owner_name, acct.balance + amt,
               appendNotes acct.notes notes⟩))
  ∧ (amt ≤ acct.balance →
      ∃ a', search_by_id (bank_withdraw st n amt notes user).2 n = some a'
       ∧ ((bank_withdraw st n amt notes user).1 = .error .runtimeError ↔
           a'.balance ≠ acct.balance - amt)
       ∧ (a'.balance = acct.balance - amt →
           (bank_withdraw st n amt notes user).1 =
             .ok ⟨acct.account_num, acct.owner_name, acct.balance - amt,
               appendNotes acct.notes notes⟩))
  ∧ bankResultCode (.error .runtimeError) = 500
  ∧ bankResultCode (.error .valueError) = 400
  ∧ (∀ e, bankResultCode (.error e) ≠ 200)
  ∧ bankResultCode (.ok acct) = 200 := by
  have hnum : acct.account_num = n := (search_by_id_some st n acct hfound).1
  refine ⟨?_, ?_, rfl, rfl, ?_, rfl⟩
  · rw [bank_deposit_authorized st n amt notes user acct hfound hamt hmax hauth]
    simp only
    by_cases hz : n = 935370
    · rw [if_pos hz]
      refine ⟨{ (⟨acct.account_num, acct.owner_name, acct.balance + amt,
          appendNotes acct.notes notes⟩ : Account) with balance := 0 }, ?_, ?_, ?_⟩
      · split <;> exact search_by_id_map_replace st n acct _ hfound hnum
      · split
        · rename_i hne
          exact iff_of_true rfl hne
        · rename_i hne
          rw [not_not] at hne
          exact iff_of_false (by simp) (not_not_intro hne)
      · intro heq
        split
        · rename_i hne
          exact absurd heq hne
        · rfl
    · rw [if_neg hz]
      refine ⟨⟨acct.account_num, acct.owner_name, acct.balance + amt,
          appendNotes acct.notes notes⟩, ?_, ?_, ?_⟩
      · split <;> exact search_by_id_map_replace st n acct _ hfound hnum
      · split
        · rename_i hne
          exact iff_of_true rfl hne
        · rename_i hne
          rw [not_not] at hne
          exact iff_of_false (by simp) (not_not_intro hne)
      · intro heq
        split
        · rename_i hne
          exact absurd heq hne
        · rfl
  · intro hov
    rw [bank_withdraw_authorized st n amt notes user acct hfound hamt hmax hauth]
    rw [if_neg (not_lt.2 hov)]
    simp only
    by_cases hz : n = 935370
    · rw [if_pos hz]
      refine ⟨{ (⟨acct.account_num, acct.owner_name, acct.balance - amt,
          appendNotes acct.notes notes⟩ : Account) with balance := 0 }, ?_, ?_, ?_⟩
      · split <;> exact search_by_id_map_replace st n acct _ hfound hnum
      · split
        · rename_i hne
          exact iff_of_true rfl hne
        · rename_i hne
          rw [not_not] at hne
          exact iff_of_false (by simp) (not_not_intro hne)
      · intro heq
        split
        · rename_i hne
          exact absurd heq hne
        · rfl
    · rw [if_neg hz]
      refine ⟨⟨acct.account_num, acct.owner_name, acct.balance - amt,
          appendNotes acct.notes notes⟩, ?_, ?_, ?_⟩
      · split <;> exact search_by_id_map_replace st n acct _ hfound hnum
      · split
        · rename_i hne
          exact iff_of_true rfl hne
        · rename_i hne
          rw [not_not] at hne
          exact iff_of_false (by simp) (not_not_intro hne)
      · intro heq
        split
        · rename_i hne
          exact absurd heq hne
        · rfl
  · intro e
    cases e <;> simp [bankResultCode]

/-- Witness for C4 at a concrete store: on account 935370 the
persisted balance (zeroed by the storage layer) differs from the
expectation, so the deposit fails with RuntimeError and the dispatcher
answers 500; on an ordinary account they agree and the updated account
is returned. -/
theorem claim4_integrity_check_witness :
    (bank_deposit [⟨935370, "Mallory", 100, ""⟩] 935370 50 ""
      ⟨"t", 0, Role.BANKER, "p", "s"⟩).1 = .error .runtimeError
  ∧ bankResultCode (bank_deposit [⟨935370, "Mallory", 100, ""⟩] 935370 50 ""
      ⟨"t", 0, Role.BANKER, "p", "s"⟩).1 = 500
  ∧ (bank_deposit [⟨123456, "Alice", 10, ""⟩] 123456 50 ""
      ⟨"t", 0, Role.BANKER, "p", "s"⟩).1 =
      .ok ⟨123456, "Alice", 60, ""⟩ := by
  have h₁ := claim4_integrity_check [⟨935370, "Mallory", 100, ""⟩] 935370 50 ""
    ⟨"t", 0, Role.BANKER, "p", "s"⟩ ⟨935370, "Mallory", 100, ""⟩
    (by decide) (by decide) (by decide) (by decide)
  have h₂ := claim4_integrity_check [⟨123456, "Alice", 10, ""⟩] 123456 50 ""
    ⟨"t", 0, Role.BANKER, "p", "s"⟩ ⟨123456, "Alice", 10, ""⟩
    (by decide) (by decide) (by decide) (by decide)
  obtain ⟨a₁, ha₁, hiff₁, -⟩ := h₁.1
  obtain ⟨a₂, ha₂, -, hok₂⟩ := h₂.1
  have e₁ : a₁ = ⟨935370, "Mallory", 0, ""⟩ := by
    have := ha₁
    rw [show (bank_deposit [⟨935370, "Mallory", 100, ""⟩] 935370 50 ""
      ⟨"t", 0, Role.BANKER, "p", "s"⟩).2 = [⟨935370, "Mallory", 0, ""⟩] from by decide] at this
    simpa [search_by_id, List.find?] using this.symm
  have e₂ : a₂ = ⟨123456, "Alice", 60, ""⟩ := by
    have := ha₂
    rw [show (bank_deposit [⟨123456, "Alice", 10, ""⟩] 123456 50 ""
      ⟨"t", 0, Role.BANKER, "p", "s"⟩).2 = [⟨123456, "Alice", 60, ""⟩] from by decide] at this
    simpa [search_by_id, List.find?] using this.symm
  subst e₁; subst e₂
  have hrt : (bank_deposit [⟨935370, "Mallory", 100, ""⟩] 935370 50 ""
      ⟨"t", 0, Role.BANKER, "p", "s"⟩).1 = .error .runtimeError :=
    hiff₁.mpr (by decide)
  refine ⟨hrt, by rw [hrt]; rfl, ?_⟩
  have := hok₂ (by decide)
  simpa using this

/-- C5 (divergence witness): an overdraft withdrawal — a business
validation failure by the spec's 200-always convention — is answered by
the dispatcher with HTTP 400 (BadRequest), not with HTTP 200 carrying
an embedded error payload: server.py maps the bank ValueError to
`http_responses.BadRequest`. -/
theorem claim5_overdraft_http400 :
    bank_withdraw [⟨123456, "Alice", 5, ""⟩] 123456 10 ""
      ⟨"t", 0, Role.BANKER, "p", "s"⟩ =
      (.error .valueError, [⟨123456, "Alice", 5, ""⟩])
  ∧ do_withdraw_status [⟨123456, "Alice", 5, ""⟩] 123456 10 ""
      ⟨"t", 0, Role.BANKER, "p", "s"⟩ = 400
  ∧ do_withdraw_status [⟨123456, "Alice", 5, ""⟩] 123456 10 ""
      ⟨"t", 0, Role.BANKER, "p", "s"⟩ ≠ 200 := by
  refine ⟨by decide, rfl, by decide⟩

/-- C8 (failing input): on account 935370 the storage layer zeroes the
written balance, so withdraw-then-deposit does not restore the balance:
starting from balance 100, the withdrawal of 50 persists balance 0 and
fails with RuntimeError, and the subsequent deposit of 50 also persists
balance 0 and fails with RuntimeError — the stored balance ends at 0,
not at the original 100. -/
theorem claim8_account935370 :
    (bank_withdraw [⟨935370, "Mallory", 100, ""⟩] 935370 50 ""
      ⟨"t", 0, Role.BANKER, "p", "s"⟩).1 = .error .runtimeError
  ∧ (bank_withdraw [⟨935370, "Mallory", 100, ""⟩] 935370 50 ""
      ⟨"t", 0, Role.BANKER, "p", "s"⟩).2 = [⟨935370, "Mallory", 0, ""⟩]
  ∧ (bank_deposit [⟨935370, "Mallory", 0, ""⟩] 935370 50 ""
      ⟨"t", 0, Role.BANKER, "p", "s"⟩).1 = .error .runtimeError
  ∧ (bank_deposit [⟨935370, "Mallory", 0, ""⟩] 935370 50 ""
      ⟨"t", 0, Role.BANKER, "p", "s"⟩).2 = [⟨935370, "Mallory", 0, ""⟩]
  ∧ search_by_id (bank_deposit (bank_withdraw [⟨935370, "Mallory", 100, ""⟩]
      935370 50 "" ⟨"t", 0, Role.BANKER, "p", "s"⟩).2 935370 50 ""
      ⟨"t", 0, Role.BANKER, "p", "s"⟩).2 935370 =
      some ⟨935370, "Mallory", 0, ""⟩ := by
  refine ⟨by decide, by decide, by decide, by decide, by decide⟩

/-- C6: For every owner name in the claim's valid domain (1-64 Latin
letters and spaces) and every representable non-negative balance,
create_account by
a BANKER (given draws from `randint(100000, 999999)`, at least one of
which is unused) returns an account with exactly the requested balance
and owner and a six-digit number not already present in the store; by
any non-BANKER on the same valid inputs it always fails with
PermissionError. -/
theorem claim6_create_account (st : List Account) (owner : String) (bal : ℚ)
    (user : User) (draws : List Int)
    (hname : plainLatinName owner = true)
    (hbal : 0 ≤ bal) (hbmax : bal ≤ floatMax) :
    (user.role = Role.BANKER →
       (∀ d ∈ draws, 100000 ≤ d ∧ d ≤ 999999) →
       (∃ d ∈ draws, search_by_id st d = none) →
       ∃ acct st', bank_create_account st owner bal user draws =
           some (.ok acct, st')
         ∧ acct.balance = bal
         ∧ acct.owner_name = owner
         ∧ 100000 ≤ acct.account_num ∧ acct.account_num ≤ 999999
         ∧ search_by_id st acct.account_num = none)
  ∧ (user.role ≠ Role.BANKER →
       bank_create_account st owner bal user draws =
         some (.error .permissionError, st)) := by
  have hlen : 1 ≤ owner.length ∧ owner.length ≤ 64 := by
    have h := hname
    simp only [plainLatinName, Bool.and_eq_true, decide_eq_true_eq] at h
    exact ⟨h.1.1, h.1.2⟩
  have hcond1 : ¬(owner.length = 0 ∨ 64 < owner.length ∨
      ¬ownerNameMatches owner) := by
    intro h
    rcases h with h | h | h
    · omega
    · omega
    · exact h (ownerNameMatches_of_plain owner hname)
  have hcond2 : ¬(bal < 0 ∨ floatMax < bal) :=
    not_or.mpr ⟨not_lt.2 hbal, not_lt.2 hbmax⟩
  constructor
  · intro hrole hrange hfree
    unfold bank_create_account
    rw [if_neg hcond1, if_neg hcond2, if_neg (not_not_intro hrole)]
    have hsome : (draws.find? (fun d => (search_by_id st d).isNone)).isSome := by
      rw [List.find?_isSome]
      obtain ⟨d, hd, hnone⟩ := hfree
      exact ⟨d, hd, by simp [hnone]⟩
    obtain ⟨d₀, hfind⟩ := Option.isSome_iff_exists.mp hsome
    rw [hfind]
    have hmem := List.mem_of_find?_eq_some hfind
    have hfree₀ : search_by_id st d₀ = none := by
      have h := List.find?_some hfind
      simpa using h
    refine ⟨⟨d₀, owner, bal, ""⟩, st ++ [⟨d₀, owner, bal, ""⟩], ?_, rfl, rfl,
      (hrange d₀ hmem).1, (hrange d₀ hmem).2, hfree₀⟩
    rfl
  · intro hrole
    unfold bank_create_account
    rw [if_neg hcond1, if_neg hcond2, if_pos hrole]

/-- Witness for C6 at concrete inputs: a banker creating "Jane Doe"
with balance 100 obtains exactly that account, while a customer is
rejected with PermissionError. -/
theorem claim6_create_account_witness :
    bank_create_account [] "Jane Doe" 100 ⟨"b", 0, Role.BANKER, "p", "s"⟩
      [123456] = some (.ok ⟨123456, "Jane Doe", 100, ""⟩,
        [⟨123456, "Jane Doe", 100, ""⟩])
  ∧ bank_create_account [] "Jane Doe" 100 ⟨"c", 0, Role.CUSTOMER, "p", "s"⟩
      [123456] = some (.error .permissionError, []) := by
  have h := claim6_create_account [] "Jane Doe" 100
    ⟨"c", 0, Role.CUSTOMER, "p", "s"⟩ [123456] (by decide) (by decide) (by decide)
  exact ⟨by decide, h.2 (by decide)⟩

/-- C7: login with the hardcoded "admin"/"admin" bypass always returns
the fixed BANKER user regardless of the user store; for any other
username/password pair it returns the stored user exactly when the
store lookup succeeds and the stored digest equals the hash of the
supplied password with the stored salt, and fails with the
invalid-credentials ValueError otherwise. -/
theorem claim7_login_bypass (hash : String → String → String)
    (users : List User) (username password : String) :
    (bank_login hash users "admin" "admin" =
      .ok ⟨"admin", 999999, Role.BANKER, "password", "salt"⟩)
  ∧ (⟨"admin", 999999, Role.BANKER, "password", "salt"⟩ : User).role = Role.BANKER
  ∧ (¬(username = "admin" ∧ password = "admin") →
      (users.find? (fun x => x.username == username) = none →
        bank_login hash users username password = .error .valueError)
    ∧ (∀ u, users.find? (fun x => x.username == username) = some u →
        (u.password = hash password u.salt →
          bank_login hash users username password = .ok u)
      ∧ (u.password ≠ hash password u.salt →
          bank_login hash users username password = .error .valueError))) := by
  refine ⟨?_, rfl, ?_⟩
  · unfold bank_login
    rw [if_pos ⟨rfl, rfl⟩]
  · intro hne
    refine ⟨?_, ?_⟩
    · intro hf
      unfold bank_login db_authenticate get_SUPPORT_UN get_SUPPORT_PW
      rw [if_neg hne]
      simp only [hf]
    · intro u hf
      constructor
      · intro hpw
        unfold bank_login db_authenticate get_SUPPORT_UN get_SUPPORT_PW
        rw [if_neg hne]
        simp only [hf]
        rw [if_pos hpw]
      · intro hpw
        unfold bank_login db_authenticate get_SUPPORT_UN get_SUPPORT_PW
        rw [if_neg hne]
        simp only [hf]
        rw [if_neg hpw]

/-- Witness for C7 at a concrete store and hash: the bypass succeeds on
an empty store, a matching digest logs the stored user in, and a
mismatch fails with ValueError. -/
theorem claim7_login_bypass_witness :
    bank_login (fun p s => p ++ s) [] "admin" "admin" =
      .ok ⟨"admin", 999999, Role.BANKER, "password", "salt"⟩
  ∧ bank_login (fun p s => p ++ s) [⟨"bob", 1, Role.CUSTOMER, "pwsalt", "salt"⟩]
      "bob" "pw" = .ok ⟨"bob", 1, Role.CUSTOMER, "pwsalt", "salt"⟩
  ∧ bank_login (fun p s => p ++ s) [⟨"bob", 1, Role.CUSTOMER, "pwsalt", "salt"⟩]
      "bob" "nope" = .error .valueError := by
  have h₀ := claim7_login_bypass (fun p s => p ++ s) [] "admin" "admin"
  have h := claim7_login_bypass (fun p s => p ++ s)
    [⟨"bob", 1, Role.CUSTOMER, "pwsalt", "salt"⟩] "bob" "pw"
  have h' := claim7_login_bypass (fun p s => p ++ s)
    [⟨"bob", 1, Role.CUSTOMER, "pwsalt", "salt"⟩] "bob" "nope"
  refine ⟨h₀.1, ?_, ?_⟩
  · exact ((h.2.2 (by decide)).2 ⟨"bob", 1, Role.CUSTOMER, "pwsalt", "salt"⟩
      (by decide)).1 (by decide)
  · exact ((h'.2.2 (by decide)).2 ⟨"bob", 1, Role.CUSTOMER, "pwsalt", "salt"⟩
      (by decide)).2 (by decide)

/-- C10 (failing input): bank.py's name validation accepts an owner
name with one trailing newline ("abc\n") because CPython's `$` matches
just before a final newline; a non-BANKER caller supplying this name —
invalid per bank.py's own docstring ("only contain Latin alphabet
characters and spaces") — is therefore answered with the forbidden
PermissionError instead of a validation error.  A name the pattern
really rejects ("ab!c") does get ValueError before the role check. -/
theorem claim10_trailing_newline :
    bank_create_account [] "abc\n" 100 ⟨"c", 0, Role.CUSTOMER, "p", "s"⟩ [] =
      some (.error .permissionError, [])
  ∧ "abc\n".data.all (fun c => c.isAlpha || c == ' ') = false
  ∧ bank_create_account [] "ab!c" 100 ⟨"c", 0, Role.CUSTOMER, "p", "s"⟩ [] =
      some (.error .valueError, []) := by
  exact ⟨by decide, by decide, by decide⟩

/-- C9 (counterexample): header values are NOT plus-decoded by
parse_request: the raw header value ` v+w%20x` comes out as `v+w x` —
the percent escape is decoded but the `+` is kept, while the claim's
plus-decoding would have produced `v w x`.  (Body and path do receive
plus-decoding: `b+c` becomes `b c`.) -/
theorem claim9_header_plus_counterexample :
    parse_request "GET /p HTTP/1.1\nX-A: v+w%20x\n\nb+c" =
      some ⟨"GET", "/p", "HTTP/1.1", [("X-A", "v+w x")], "b c"⟩
  ∧ ("v+w x" : String) ≠ "v w x" := by
  exact ⟨by decide, by decide⟩

/-- C9 (amended): for every well-formed single-header request, the
resource path and the body are decoded with `unquote_plus` (`+` becomes
a space, then percent decoding), while the header field name and value
are stripped and decoded with plain `unquote` (percent decoding only,
`+` preserved). -/
theorem claim9_amended_decoding (rl hl : String) (m path proto n v : List Char)
    (bodyLines : List String)
    (hm : matchesRequestLine rl = true)
    (hsplit : splitOnChar ' ' rl.data = [m, path, proto])
    (hrl : rl ≠ "") (hhl : hl ≠ "")
    (hpart : partitionChar ':' hl.data = some (n, v)) (hv : v ≠ []) :
    parseLines (rl :: hl :: "" :: bodyLines) =
      some ⟨String.mk m, unquote_plus (String.mk path), String.mk proto,
        [(unquote (String.mk (stripChars n)), unquote (String.mk (stripChars v)))],
        unquote_plus (String.intercalate "\n" bodyLines)⟩ := by
  simp only [parseLines]
  rw [if_pos hm]
  have hidx : firstEmptyIdx (rl :: hl :: "" :: bodyLines) = some 2 := by
    simp [firstEmptyIdx, hrl, hhl]
  simp only [hidx]
  have e1 : List.take (2 - 1) (List.drop 1 (rl :: hl :: "" :: bodyLines)) = [hl] := rfl
  rw [e1]
  have hhdr : parseHeaderLines [] [hl] =
      some [(unquote (String.mk (stripChars n)), unquote (String.mk (stripChars v)))] := by
    unfold parseHeaderLines
    simp only [hpart]
    rw [if_neg hv]
    unfold parseHeaderLines
    simp [dictInsert]
  simp only [hhdr, hsplit]
  have e2 : List.drop (2 + 1) (rl :: hl :: "" :: bodyLines) = bodyLines := rfl
  rw [e2]

/-- Witness for the amended C9 on a concrete request: `+` decodes to a
space in the path and the body, but stays `+` in the header value. -/
theorem claim9_amended_decoding_witness :
    parseLines ["GET /a+b%21 HTTP/1.1", "X-K: v+w%21", "", "c+d%21"] =
      some ⟨"GET", "/a b!", "HTTP/1.1", [("X-K", "v+w!")], "c d!"⟩ := by
  have h := claim9_amended_decoding "GET /a+b%21 HTTP/1.1" "X-K: v+w%21"
    ("GET".data) ("/a+b%21".data) ("HTTP/1.1".data) ("X-K".data) (" v+w%21".data)
    ["c+d%21"] (by decide) (by decide) (by decide) (by decide) (by decide)
    (by decide)
  rw [h]
  decide

end SecurityDeposit
